import Mathlib

/-!
Verification of the Black 76 price engine (jaxfin.price_engine).

The pricing code is elementwise over same-shape arrays: every array operation
in `black_price` (exp, \*, -, where) acts independently on each element, so the
embedding models one scenario (one element of the batch).  Machine floats are
modelled as elements of a field; the elementwise exponential `jnp.exp` of the
numeric runtime is a function parameter `E`, and the external Black-Scholes
kernel `compute_undiscounted_call_prices` (excluded from the repository and
from the spec) is a function parameter `K` of its five arguments
(forward, strike, expiry, vol, discount_rate).  The dtype-casting helper
`cast_arrays` is the identity on ideal numbers, and the `dtype` argument of
`black_price` is therefore dropped from the value-level model (it is kept in
the vectorization-mask model below, where only its presence matters).
-/

section BlackModel

variable {F : Type} [Field F]

/-- The local `discount_factors` of `black_price`:
`jnp.exp((discount_rates - dividend_rates) * expires)`. -/
def discount_factors (E : F → F) (discount_rates dividend_rates expires : F) : F :=
  E ((discount_rates - dividend_rates) * expires)

/-- The local `forwards` of `black_price`: `discount_factors * spots`. -/
def forwards (E : F → F) (discount_rates dividend_rates expires spots : F) : F :=
  discount_factors E discount_rates dividend_rates expires * spots

/-- The local `undiscounted_calls` of `black_price`: the external kernel
applied at `(forwards, strikes, expires, vols, discount_rates)`. -/
def undiscounted_calls (E : F → F) (K : F → F → F → F → F → F)
    (spots strikes expires vols discount_rates dividend_rates : F) : F :=
  K (forwards E discount_rates dividend_rates expires spots) strikes expires vols
    discount_rates

/-- The local `undiscounted_forwards` of `black_price`: `forwards - strikes`. -/
def undiscounted_forwards (E : F → F)
    (spots strikes expires discount_rates dividend_rates : F) : F :=
  forwards E discount_rates dividend_rates expires spots - strikes

/-- The local `undiscouted_puts` of `black_price` (name as in the source):
`undiscounted_calls - undiscounted_forwards`. -/
def undiscouted_puts (E : F → F) (K : F → F → F → F → F → F)
    (spots strikes expires vols discount_rates dividend_rates : F) : F :=
  undiscounted_calls E K spots strikes expires vols discount_rates dividend_rates -
    undiscounted_forwards E spots strikes expires discount_rates dividend_rates

/-- One element of `black_price` (src/jaxfin/price_engine/black/black_model.py).
`dividend_rates = none` models the Python default `None`, replaced by zeros;
`are_calls = none` models the omitted mask (early return of
`discount_factors * undiscounted_calls`), and `are_calls = some c` the masked
path `exp((-1 * discount_rates) * expires) * where(are_calls, calls, puts)`. -/
def black_price (E : F → F) (K : F → F → F → F → F → F)
    (spots strikes expires vols discount_rates : F)
    (dividend_rates : Option F) (are_calls : Option Bool) : F :=
  let q := dividend_rates.getD 0
  let dfs := discount_factors E discount_rates q expires
  let uc := undiscounted_calls E K spots strikes expires vols discount_rates q
  match are_calls with
  | none => dfs * uc
  | some is_call =>
      E (-1 * discount_rates * expires) *
        (if is_call then uc
         else undiscouted_puts E K spots strikes expires vols discount_rates q)

/-- Modelled from the spec: the public entry point `price`
(`future_option_price`, the wrapper the tests import), whose source is not
under src/.  Per spec §6, `discount_rate` and `dividend_rate` default to zero
when unspecified; the wrapper delegates to `black_price`. -/
def price (E : F → F) (K : F → F → F → F → F → F)
    (spots strikes expires vols : F) (discount_rates : Option F)
    (dividend_rates : Option F) (are_calls : Option Bool) : F :=
  black_price E K spots strikes expires vols (discount_rates.getD 0)
    dividend_rates are_calls

end BlackModel

section Vectorizer

/-- Shape class of an argument passed to the Batch Vectorizer: a bare scalar
(`jnp.isscalar` true) or an array (`jnp.isscalar` false). -/
inductive JaxArg where
  | scalar : JaxArg
  | array : JaxArg
deriving DecidableEq

/-- `jnp.isscalar` on the model of an argument. -/
def isscalar : JaxArg → Bool
  | .scalar => true
  | .array => false

/-- The in-axes mask of `_get_vmap_mask`
(src/jaxfin/price_engine/utils/vect.py): `none` models the Python `None`
entry (no broadcast) and `some 0` the axis-0 entry.  The optional arguments
are `none` when the caller omits them; for `dtype` only presence matters, so
it is modelled by `Option Unit`. -/
def get_vmap_mask (spots strikes expires vols discount_rates : JaxArg)
    (dividend_rates are_calls : Option JaxArg) (dtype : Option Unit) :
    List (Option Nat) :=
  let mask := [spots, strikes, expires, vols, discount_rates].map
    (fun x => if isscalar x then none else some 0)
  let mask := if dividend_rates.isSome then mask ++ [some 0] else mask
  let mask :=
    if are_calls.isSome then
      let mask := mask ++ [some 0]
      if dtype.isSome then mask ++ [none] else mask
    else mask
  mask

/-- The number of arguments actually supplied to `get_vfunction` and passed
on to `_get_vmap_mask`: the five required ones plus each optional one that is
present. -/
def suppliedArgCount (dividend_rates are_calls : Option JaxArg)
    (dtype : Option Unit) : Nat :=
  5 + (if dividend_rates.isSome then 1 else 0) +
    (if are_calls.isSome then 1 else 0) + (if dtype.isSome then 1 else 0)

end Vectorizer

/-- C6: the broadcast specification assigns, in the fixed argument order,
axis 0 to each of the five leading arguments that is an array and no
broadcast to each that is a scalar; always axis 0 to `dividend_rates` when
supplied; always axis 0 to `are_calls` when supplied; and a no-broadcast
entry for `dtype` exactly when both `are_calls` and `dtype` are supplied.
When every input is a scalar, all five leading entries are non-batched. -/
theorem vmap_mask_spec (s k t v r : JaxArg) (dq ac : Option JaxArg)
    (dt : Option Unit) :
    get_vmap_mask s k t v r dq ac dt =
      ([s, k, t, v, r].map (fun x => if isscalar x then none else some 0)) ++
        (if dq.isSome then [some 0] else []) ++
        (if ac.isSome then
          [some 0] ++ (if dt.isSome then [(none : Option Nat)] else [])
         else []) ∧
    (get_vmap_mask .scalar .scalar .scalar .scalar .scalar dq ac dt).take 5 =
      List.replicate 5 none := by
  constructor
  · cases dq <;> cases ac <;> cases dt <;>
      simp [get_vmap_mask]
  · cases dq <;> cases ac <;> cases dt <;>
      simp [get_vmap_mask, isscalar, List.replicate]

/-- C9: the mask has length
`5 + [dividend_rates present] + [are_calls present] + [both are_calls and
dtype present]`; every entry is `None` or axis 0; and when `dtype` is
supplied without `are_calls`, the mask covers one fewer position than the
arguments actually passed. -/
theorem vmap_mask_length (s k t v r : JaxArg) (dq ac : Option JaxArg)
    (dt : Option Unit) :
    (get_vmap_mask s k t v r dq ac dt).length =
      5 + (if dq.isSome then 1 else 0) + (if ac.isSome then 1 else 0) +
        (if ac.isSome && dt.isSome then 1 else 0) ∧
    ((get_vmap_mask s k t v r dq ac dt).all
      (fun e => e = none || e = some 0)) = true ∧
    (get_vmap_mask s k t v r dq none (some ())).length + 1 =
      suppliedArgCount dq none (some ()) := by
  refine ⟨?_, ?_, ?_⟩
  · cases dq <;> cases ac <;> cases dt <;> simp [get_vmap_mask]
  · cases dq <;> cases ac <;> cases dt <;> cases s <;> cases k <;> cases t <;>
      cases v <;> cases r <;> simp [get_vmap_mask, isscalar]
  · cases dq <;> cases s <;> cases k <;> cases t <;> cases v <;> cases r <;>
      simp [get_vmap_mask, suppliedArgCount, isscalar]

/-- C1: with `are_calls` supplied, each output element of `black_price` is
`exp(-discount_rate * expiry)` times the undiscounted call where the mask is
true, else the undiscounted put `undiscounted_call - (forward - strike)`,
with `forward = exp((discount_rate - dividend_rate) * expiry) * spot`. -/
theorem black_price_masked_formula (K : ℝ → ℝ → ℝ → ℝ → ℝ → ℝ)
    (s k t v r : ℝ) (q : Option ℝ) (c : Bool) :
    black_price Real.exp K s k t v r q (some c) =
      Real.exp (-(r * t)) *
        (if c then K (Real.exp ((r - q.getD 0) * t) * s) k t v r
         else K (Real.exp ((r - q.getD 0) * t) * s) k t v r -
           (Real.exp ((r - q.getD 0) * t) * s - k)) := by
  have harg : -1 * r * t = -(r * t) := by ring
  cases c <;>
    simp [black_price, undiscouted_puts, undiscounted_calls, undiscounted_forwards,
      forwards, discount_factors, harg]

/-- C2: with `are_calls` omitted, `black_price` returns
`discount_factor * undiscounted_call` where
`discount_factor = exp((discount_rate - dividend_rate) * expiry)` and the
kernel is invoked at `forward = discount_factor * spot`; no parity subtraction
or selection appears in the result. -/
theorem black_price_unmasked_formula (K : ℝ → ℝ → ℝ → ℝ → ℝ → ℝ)
    (s k t v r : ℝ) (q : Option ℝ) :
    black_price Real.exp K s k t v r q none =
      Real.exp ((r - q.getD 0) * t) *
        K (Real.exp ((r - q.getD 0) * t) * s) k t v r := by
  simp [black_price, undiscounted_calls, forwards, discount_factors]

/-- C4: put-call parity by construction: on the masked path,
`undiscounted_calls - undiscouted_puts = forwards - strikes` exactly. -/
theorem black_put_call_parity {F : Type} [Field F] (E : F → F)
    (K : F → F → F → F → F → F) (s k t v r q : F) :
    undiscounted_calls E K s k t v r q - undiscouted_puts E K s k t v r q =
      forwards E r q t s - k := by
  simp [undiscouted_puts, undiscounted_forwards]

/-- C3 counterexample: the claim that the unmasked and masked all-true results
coincide exactly when `dividend_rate = 2 * discount_rate` fails as stated.
First input: at `expiry = 0` (kernel constantly 1) the two paths coincide
although `dividend_rate = 0 ≠ 2 * 1 = 2 * discount_rate`.  Second input: at
`expiry = 1` with a kernel returning 0 they also coincide with the same
rates. -/
theorem black_discounting_iff_counterexample :
    (black_price Real.exp (fun _ _ _ _ _ => (1 : ℝ)) 1 1 0 1 1 (some 0) none =
       black_price Real.exp (fun _ _ _ _ _ => (1 : ℝ)) 1 1 0 1 1 (some 0) (some true) ∧
       (0 : ℝ) ≠ 2 * 1) ∧
    (black_price Real.exp (fun _ _ _ _ _ => (0 : ℝ)) 1 1 1 1 1 (some 0) none =
       black_price Real.exp (fun _ _ _ _ _ => (0 : ℝ)) 1 1 1 1 1 (some 0) (some true) ∧
       (0 : ℝ) ≠ 2 * 1) := by
  refine ⟨⟨?_, by norm_num⟩, ⟨?_, by norm_num⟩⟩ <;>
    simp [black_price, undiscounted_calls, forwards, discount_factors]

/-- C3 (amended): the unmasked result and the masked all-true result use the
same undiscounted call value but different discount factors,
`exp((r - q) * t)` versus `exp(-r * t)`, so the unmasked result equals
`exp((2r - q) * t)` times the masked all-true result; when moreover
`expiry ≠ 0` and the kernel value at the forward is nonzero, the two results
coincide if and only if `dividend_rate = 2 * discount_rate` (in particular
they coincide when both rates are zero). -/
theorem black_unmasked_vs_masked (K : ℝ → ℝ → ℝ → ℝ → ℝ → ℝ)
    (s k t v r q : ℝ) (ht : t ≠ 0)
    (hK : K (Real.exp ((r - q) * t) * s) k t v r ≠ 0) :
    black_price Real.exp K s k t v r (some q) none =
      Real.exp ((2 * r - q) * t) *
        black_price Real.exp K s k t v r (some q) (some true) ∧
    (black_price Real.exp K s k t v r (some q) none =
        black_price Real.exp K s k t v r (some q) (some true) ↔
      q = 2 * r) := by
  have hu : black_price Real.exp K s k t v r (some q) none =
      Real.exp ((r - q) * t) * K (Real.exp ((r - q) * t) * s) k t v r := by
    simp [black_price, undiscounted_calls, forwards, discount_factors]
  have hm : black_price Real.exp K s k t v r (some q) (some true) =
      Real.exp (-1 * r * t) * K (Real.exp ((r - q) * t) * s) k t v r := by
    simp [black_price, undiscounted_calls, forwards, discount_factors]
  constructor
  · rw [hu, hm, ← mul_assoc, ← Real.exp_add]
    ring_nf
  · rw [hu, hm]
    constructor
    · intro h
      have h2 : Real.exp ((r - q) * t) = Real.exp (-1 * r * t) :=
        mul_right_cancel₀ hK h
      have h3 : (r - q) * t = -1 * r * t := Real.exp_injective h2
      have h4 : r - q = -1 * r := mul_right_cancel₀ ht h3
      linarith
    · intro h
      subst h
      have harg : (r - 2 * r) * t = -1 * r * t := by ring
      rw [harg]

/-- One element of `delta_black`: the automatic derivative
`grad(black_price, argnums=0)` of the numeric runtime is the derivative of
`black_price` in its first (spots) argument, all other arguments fixed. -/
noncomputable def delta_black (K : ℝ → ℝ → ℝ → ℝ → ℝ → ℝ)
    (spots strikes expires vols discount_rates : ℝ)
    (dividend_rates : Option ℝ) (are_calls : Option Bool) : ℝ :=
  deriv
    (fun s => black_price Real.exp K s strikes expires vols discount_rates
      dividend_rates are_calls) spots

/-- One element of `gamma_black`: `grad(grad(black_price, argnums=0), argnums=0)`,
the second derivative of `black_price` in the spots argument. -/
noncomputable def gamma_black (K : ℝ → ℝ → ℝ → ℝ → ℝ → ℝ)
    (spots strikes expires vols discount_rates : ℝ)
    (dividend_rates : Option ℝ) (are_calls : Option Bool) : ℝ :=
  deriv
    (deriv
      (fun s => black_price Real.exp K s strikes expires vols discount_rates
        dividend_rates are_calls)) spots

/-- C5: wherever `black_price` is differentiable in spot, `delta_black` is the
first derivative of `black_price` with respect to the spots argument and
`gamma_black` is the derivative of `delta_black` with respect to spots, all
remaining arguments held fixed. -/
theorem delta_gamma_are_spot_derivatives (K : ℝ → ℝ → ℝ → ℝ → ℝ → ℝ)
    (s k t v r : ℝ) (q : Option ℝ) (c : Option Bool)
    (hdiff : DifferentiableAt ℝ
      (fun x => black_price Real.exp K x k t v r q c) s) :
    delta_black K s k t v r q c =
      deriv (fun x => black_price Real.exp K x k t v r q c) s ∧
    gamma_black K s k t v r q c =
      deriv (fun x => delta_black K x k t v r q c) s :=
  ⟨rfl, rfl⟩

/-- C5 witness: with the kernel returning its first argument, the price is
differentiable in spot at 1. -/
theorem delta_gamma_are_spot_derivatives_witness :
    delta_black (fun f _ _ _ _ => f) 1 1 1 1 0 (some 0) none =
      deriv (fun x => black_price Real.exp (fun f _ _ _ _ => f) x 1 1 1 0
        (some 0) none) 1 ∧
    gamma_black (fun f _ _ _ _ => f) 1 1 1 1 0 (some 0) none =
      deriv (fun x => delta_black (fun f _ _ _ _ => f) x 1 1 1 0
        (some 0) none) 1 :=
  delta_gamma_are_spot_derivatives (fun f _ _ _ _ => f) 1 1 1 1 0 (some 0) none
    (by
      have h : (fun x : ℝ => black_price Real.exp (fun f _ _ _ _ => f) x 1 1 1 0
          (some 0) none) =
          fun x : ℝ => Real.exp ((0 - 0) * 1) * (Real.exp ((0 - 0) * 1) * x) := by
        funext x
        simp [black_price, undiscounted_calls, forwards, discount_factors]
      rw [h]
      exact (differentiableAt_id'.const_mul _).const_mul _)

/-- C7: calling the entry point with `discount_rate` and `dividend_rate`
omitted returns the same result as calling it with both explicitly zero. -/
theorem price_rate_defaults {F : Type} [Field F] (E : F → F)
    (K : F → F → F → F → F → F) (s k t v : F) (c : Option Bool) :
    price E K s k t v none none c = price E K s k t v (some 0) (some 0) c := by
  simp [price, black_price]

/-- C8: under the domain assumptions `spot, strike, expiry, vol > 0` and the
kernel assumptions that the undiscounted call is non-negative and at least
`forward - strike`, every element returned by `black_price` is non-negative,
on the masked path (either mask value) and on the unmasked path. -/
theorem black_price_nonneg {F : Type} [LinearOrderedField F] (E : F → F)
    (K : F → F → F → F → F → F) (s k t v r : F) (q : Option F)
    (c : Option Bool) (hE : ∀ x, 0 < E x) (hs : 0 < s) (hk : 0 < k)
    (ht : 0 < t) (hv : 0 < v)
    (huc_nonneg : 0 ≤ undiscounted_calls E K s k t v r (q.getD 0))
    (huc_ge : forwards E r (q.getD 0) t s - k ≤
      undiscounted_calls E K s k t v r (q.getD 0)) :
    0 ≤ black_price E K s k t v r q c := by
  cases c with
  | none => exact mul_nonneg (hE _).le huc_nonneg
  | some is_call =>
      cases is_call with
      | true => simpa [black_price] using mul_nonneg (hE _).le huc_nonneg
      | false =>
          have hput : 0 ≤ undiscouted_puts E K s k t v r (q.getD 0) := by
            have := sub_nonneg.mpr huc_ge
            simpa [undiscouted_puts, undiscounted_forwards] using this
          simpa [black_price] using mul_nonneg (hE _).le hput

/-- C8 witness: over the rationals with a trivially positive exponential and
a kernel constantly 1, the price is non-negative at a concrete scenario. -/
theorem black_price_nonneg_witness :
    0 ≤ black_price (fun _ => (1 : ℚ)) (fun _ _ _ _ _ => (1 : ℚ)) 1 1 1 1 0
      none none :=
  black_price_nonneg (fun _ => (1 : ℚ)) (fun _ _ _ _ _ => (1 : ℚ)) 1 1 1 1 0
    none none (fun _ => one_pos) one_pos one_pos one_pos one_pos
    (by norm_num [undiscounted_calls, forwards, discount_factors])
    (by norm_num [undiscounted_calls, forwards, discount_factors])

/-- C3 amended witness. -/
theorem black_unmasked_vs_masked_witness :
    black_price Real.exp (fun _ _ _ _ _ => (1 : ℝ)) 1 1 1 1 0 (some 0) none =
      Real.exp ((2 * 0 - 0) * 1) *
        black_price Real.exp (fun _ _ _ _ _ => (1 : ℝ)) 1 1 1 1 0 (some 0) (some true) ∧
    (black_price Real.exp (fun _ _ _ _ _ => (1 : ℝ)) 1 1 1 1 0 (some 0) none =
        black_price Real.exp (fun _ _ _ _ _ => (1 : ℝ)) 1 1 1 1 0 (some 0) (some true) ↔
      (0 : ℝ) = 2 * 0) :=
  black_unmasked_vs_masked (fun _ _ _ _ _ => (1 : ℝ)) 1 1 1 1 0 0 one_ne_zero
    one_ne_zero
